import Mathlib

/-!
Verification of the wait-engine core of the repository
(src/agentic_computer_use): adaptive poller, pixel-diff downsampling,
verdict parsing, the scheduler run loop, the display manager and the
task journal wait-finished hook.  Python floats are modelled as
rationals, Python strings as `List Char`, fallible operations as
`Option`/`Except`, and stateful objects as explicit state records.
-/

namespace ACU

/-! ## Kernel-reducible rational arithmetic

The library `+`, `-`, `*` operations on `ℚ` are `@[irreducible]`, so concrete
witnesses could not be checked by `decide` through them.  The helpers
below compute the same values through `mkRat`; the `_eq` lemmas identify
them with the standard operations for abstract reasoning. -/

def qAdd (a b : ℚ) : ℚ := mkRat (a.num * b.den + b.num * a.den) (a.den * b.den)

def qSub (a b : ℚ) : ℚ := mkRat (a.num * b.den - b.num * a.den) (a.den * b.den)

/-- Multiplication by the rational `a / b`. -/
def scaleQ (a : ℤ) (b : ℕ) (q : ℚ) : ℚ := mkRat (a * q.num) (b * q.den)

def qmin (a b : ℚ) : ℚ := if a ≤ b then a else b

def qmax (a b : ℚ) : ℚ := if a ≤ b then b else a

theorem qAdd_eq (a b : ℚ) : qAdd a b = a + b := by
  have ha : (a.den : ℚ) ≠ 0 := Nat.cast_ne_zero.mpr a.den_nz
  have hb : (b.den : ℚ) ≠ 0 := Nat.cast_ne_zero.mpr b.den_nz
  unfold qAdd
  rw [Rat.mkRat_eq_div]
  conv_rhs => rw [← Rat.num_div_den a, ← Rat.num_div_den b]
  rw [div_add_div _ _ ha hb]
  push_cast
  ring_nf

theorem qSub_eq (a b : ℚ) : qSub a b = a - b := by
  have ha : (a.den : ℚ) ≠ 0 := Nat.cast_ne_zero.mpr a.den_nz
  have hb : (b.den : ℚ) ≠ 0 := Nat.cast_ne_zero.mpr b.den_nz
  unfold qSub
  rw [Rat.mkRat_eq_div]
  conv_rhs => rw [← Rat.num_div_den a, ← Rat.num_div_den b]
  rw [div_sub_div _ _ ha hb]
  push_cast
  ring_nf

theorem scaleQ_eq (a : ℤ) (b : ℕ) (q : ℚ) : scaleQ a b q = (a : ℚ) / (b : ℚ) * q := by
  unfold scaleQ
  rw [Rat.mkRat_eq_div]
  conv_rhs => rw [← Rat.num_div_den q]
  rw [div_mul_div_comm]
  push_cast
  ring_nf

theorem qmin_eq (a b : ℚ) : qmin a b = min a b := by
  rw [qmin, min_def]

theorem qmax_eq (a b : ℚ) : qmax a b = max a b := by
  rw [qmax, max_def]

/-! ## Configuration constants (src/agentic_computer_use/config.py, defaults) -/

def DEFAULT_POLL_INTERVAL : ℚ := 2

def MIN_POLL_INTERVAL : ℚ := mkRat 1 2

def MAX_POLL_INTERVAL : ℚ := 5

def RESOLVE_CONFIDENCE_THRESHOLD : ℚ := mkRat 3 4

def PARTIAL_STREAK_RESOLVE : ℕ := 2

def DIFF_MAX_WIDTH : ℕ := 320

def MAX_STATIC_SECONDS : ℚ := 30

theorem MIN_POLL_INTERVAL_eq : MIN_POLL_INTERVAL = 1/2 := by
  rw [MIN_POLL_INTERVAL, Rat.mkRat_eq_div]
  norm_num

theorem RESOLVE_CONFIDENCE_THRESHOLD_eq : RESOLVE_CONFIDENCE_THRESHOLD = 3/4 := by
  rw [RESOLVE_CONFIDENCE_THRESHOLD, Rat.mkRat_eq_div]
  norm_num

/-! ## Adaptive poller (src/agentic_computer_use/wait/poller.py)

`AdaptivePoller.__init__` takes an arbitrary `base_interval` argument:
`None`, a value convertible to `float`, or a value on which `float(...)`
raises `TypeError`/`ValueError`.  The three possibilities are the three
constructors of `PollerArg`; a convertible value is its rational value. -/

inductive PollerArg where
  | none : PollerArg
  | num (q : ℚ) : PollerArg
  | invalid : PollerArg
deriving DecidableEq

structure PollerState where
  base : ℚ
  current : ℚ
  static_count : ℕ
deriving DecidableEq, Repr

/-- `AdaptivePoller.__init__`: `float(base_interval)` when given and
convertible, else the default; `current` starts at `base`. -/
def pollerInit (arg : PollerArg) : PollerState :=
  let b := match arg with
    | .none => DEFAULT_POLL_INTERVAL
    | .num q => q
    | .invalid => DEFAULT_POLL_INTERVAL
  { base := b, current := b, static_count := 0 }

/-- `AdaptivePoller.on_no_change` (`current * 1.5` is `scaleQ 3 2`). -/
def on_no_change (p : PollerState) : PollerState :=
  let sc := p.static_count + 1
  if sc > 5 then
    { p with static_count := sc, current := qmin (scaleQ 3 2 p.current) MAX_POLL_INTERVAL }
  else
    { p with static_count := sc }

/-- `AdaptivePoller.on_change_no_match`. -/
def on_change_no_match (p : PollerState) : PollerState :=
  { p with static_count := 0, current := p.base }

/-- `AdaptivePoller.on_partial` (speed up after a PARTIAL verdict). -/
def on_partial_event (p : PollerState) : PollerState :=
  { p with static_count := 0, current := qmax (scaleQ 1 2 p.current) MIN_POLL_INTERVAL }

inductive PollerOp where
  | noChange : PollerOp
  | changeNoMatch : PollerOp
  | partialVerdict : PollerOp
deriving DecidableEq

def pollerStep (p : PollerState) : PollerOp → PollerState
  | .noChange => on_no_change p
  | .changeNoMatch => on_change_no_match p
  | .partialVerdict => on_partial_event p

def pollerRun (p : PollerState) : List PollerOp → PollerState
  | [] => p
  | op :: ops => pollerRun (pollerStep p op) ops

/-! ## Pixel-diff downsampling (src/agentic_computer_use/capture/diff.py)

A frame is a row-major list of rows of pixels; `frame[::step]` is
`takeEvery step`.  `_downsample` receives the frame width `w`
(`frame.shape[1]`; all rows of a numpy frame have the same length). -/

def takeEveryAux (step : ℕ) : List α → ℕ → List α
  | [], _ => []
  | x :: xs, 0 => x :: takeEveryAux step xs (step - 1)
  | _ :: xs, k + 1 => takeEveryAux step xs k

/-- `l[::step]`: keep every `step`-th element starting at index 0. -/
def takeEvery (step : ℕ) (l : List α) : List α :=
  takeEveryAux step l 0

/-- `_downsample(frame, max_width)`: identity when `w ≤ max_width`, else
stride `max(1, w // max_width)` decimation of rows and columns. -/
def _downsample (frame : List (List α)) (w : ℕ) (max_width : ℕ) : List (List α) :=
  if w ≤ max_width then frame
  else
    let step := max 1 (w / max_width)
    (takeEvery step frame).map (takeEvery step)

/-! ## Verdict parsing (WaitEngine._parse_verdict, wait/engine.py)

Python strings are `List Char`.  The `FINAL_JSON` regex-plus-`json.loads`
front end is fallible; its outcome is an `Option Payload`: `none` when the
fragment is absent or malformed (the code then falls through to the legacy
line scanner), `some p` when a JSON object was decoded. -/

abbrev Str := List Char

def isWS (c : Char) : Bool :=
  c = ' ' ∨ c = '\t' ∨ c = '\n' ∨ c = '\r' ∨ c = '\x0b' ∨ c = '\x0c'

/-- Python `str.strip()`. -/
def stripStr (s : Str) : Str :=
  ((s.dropWhile isWS).reverse.dropWhile isWS).reverse

def toLowerStr (s : Str) : Str := s.map Char.toLower

def toUpperStr (s : Str) : Str := s.map Char.toUpper

def splitOnChar (c : Char) : Str → List Str
  | [] => [[]]
  | x :: xs =>
    if x = c then [] :: splitOnChar c xs
    else
      match splitOnChar c xs with
      | [] => [[x]]
      | l :: ls => (x :: l) :: ls

/-- The non-empty stripped lines of the reply
(`[l.strip() for l in text.split? "\n"? if l.strip()]`). -/
def nonEmptyLines (text : Str) : List Str :=
  ((splitOnChar '\n' text).map stripStr).filter (· ≠ [])

/-- Python `"; ".join(...)`-style separator join. -/
def joinSep (sep : Str) : List Str → Str
  | [] => []
  | [x] => x
  | x :: xs => x ++ sep ++ joinSep sep xs

/-- Python `a or b` on strings: `b` when `a` is empty. -/
def orNonEmpty (a b : Str) : Str := if a = [] then b else a

/-- A JSON `confidence` value that is present and not null: how Python
formats it inside an f-string, and what `float(...)` returns on it
(`none` when `float` raises `TypeError` or `ValueError`). -/
structure JsonConfidence where
  shown : Str
  asFloat : Option ℚ
deriving DecidableEq

/-- The decoded `FINAL_JSON` object after the engine field accesses:
`decision` is `str(payload.get("decision", ""))`, `summary` is
`str(payload.get("summary", ""))`, `confidence` is `none` when the key is
absent or null, and `evidence` holds `str(x)` for each element after the
`isinstance` normalization (a plain string becomes a one-element list, a
non-list becomes the empty list). -/
structure Payload where
  decision : Str
  summary : Str
  confidence : Option JsonConfidence
  evidence : List Str
deriving DecidableEq

/-- Mapping of the lower-cased, stripped `decision` to a canonical label. -/
def decisionToLabel (dec : Str) : Str :=
  if dec = "yes".data ∨ dec = "resolved".data then "resolved".data
  else if dec = "partial".data ∨ dec = "in_progress".data ∨ dec = "progress".data then
    "partial".data
  else "watching".data

/-- `"; ".join(str(x).strip() for x in evidence if str(x).strip())`. -/
def evidenceText (p : Payload) : Str :=
  joinSep "; ".data ((p.evidence.map stripStr).filter (· ≠ []))

/-- `float(confidence)` with the `except` fallback to `0.0`. -/
def confVal (p : Payload) : ℚ :=
  match p.confidence with
  | none => 0
  | some c => c.asFloat.getD 0

def natStrAux : ℕ → ℕ → Str
  | 0, _ => []
  | fuel + 1, n =>
    if n < 10 then ["0123456789".data.getD n '0']
    else natStrAux fuel (n / 10) ++ ["0123456789".data.getD (n % 10) '0']

def natStr (n : ℕ) : Str := natStrAux (n + 1) n

/-- Decimal rendering of a rational, modelling the Python f-string
interpolation of the numeric value (the digit layout differs from
CPython float repr; no claim inspects the digits). -/
def ratShown (q : ℚ) : Str :=
  (if q.num < 0 then ['-'] else []) ++ natStr q.num.natAbs ++
    (if q.den = 1 then [] else '/' :: natStr q.den)

/-- The structured branch of `_parse_verdict`: label from `decision`,
detail assembled from summary, evidence and confidence, then the
confidence-based promotion of `watching` to `partial`, and the final
truncation of the detail to 500 characters. -/
def jsonVerdict (p : Payload) : Str × Str :=
  let decision := toLowerStr (stripStr p.decision)
  let result := decisionToLabel decision
  let summary := stripStr p.summary
  let ev := evidenceText p
  let detail_parts :=
    (if summary ≠ [] then [summary] else []) ++
    (if ev ≠ [] then ["evidence: ".data ++ ev] else []) ++
    (match p.confidence with
     | none => []
     | some c => ["confidence=".data ++ c.shown])
  let detail := orNonEmpty (joinSep " | ".data detail_parts) "Structured verdict parsed".data
  let promote :=
    result = "watching".data ∧ confVal p ≥ RESOLVE_CONFIDENCE_THRESHOLD ∧ ev ≠ []
  let result' := if promote then "partial".data else result
  let detail' :=
    if promote then
      "[conf-promoted watching→partial @ ".data ++ ratShown (confVal p) ++ "] ".data ++ detail
    else detail
  (result', detail'.take 500)

/-- One line of the legacy fallback scanner (`YES` / `PARTIAL` / `NO`
first token, case-insensitive, optionally followed by a colon). -/
def lineVerdict (line : Str) : Option (Str × Str) :=
  let upper := toUpperStr line
  if "YES:".data.isPrefixOf upper ∨ "YES ".data.isPrefixOf upper then
    some ("resolved".data, orNonEmpty (stripStr (line.drop 4)) "Condition met".data)
  else if upper = "YES".data then
    some ("resolved".data, "Condition met".data)
  else if "PARTIAL:".data.isPrefixOf upper ∨ "PARTIAL ".data.isPrefixOf upper then
    some ("partial".data, orNonEmpty (stripStr (line.drop 8)) "Partial progress".data)
  else if "NO:".data.isPrefixOf upper ∨ "NO ".data.isPrefixOf upper then
    some ("watching".data, orNonEmpty (stripStr (line.drop 3)) "Condition not yet met".data)
  else if upper = "NO".data then
    some ("watching".data, "Condition not yet met".data)
  else none

/-- First line matching one of the legacy patterns wins. -/
def legacyScan : List Str → Option (Str × Str)
  | [] => none
  | l :: ls =>
    match lineVerdict l with
    | some r => some r
    | none => legacyScan ls

/-- `WaitEngine._parse_verdict`: strip, handle empty, use the structured
fragment when it decoded, else scan lines, else fall back to `watching`
with the text truncated to 500 characters. -/
def parse_verdict (response : Option Str) (finalJson : Option Payload) : Str × Str :=
  let text := stripStr (response.getD [])
  if text = [] then ("watching".data, "Empty response".data)
  else
    match finalJson with
    | some p => jsonVerdict p
    | none =>
      match legacyScan (nonEmptyLines text) with
      | some r => r
      | none => ("watching".data, text.take 500)

/-! ## Scheduler loop body (WaitEngine._run_loop, wait/engine.py lines 97-183)

One iteration of the run loop, for the job the loop selected.  Wall
clocks are rationals.  External effects are oracles in `TickEnv`:
whether `_capture` returned a frame, what `diff_gate.should_evaluate`
answered, and the parsed verdict of the vision reply (`none` when
`evaluate_condition` raised; the pair is `_parse_verdict(response)`).
`tNow` is the `time.time()` reading taken inside the body. -/

structure JobState where
  timeout : ℚ
  started_at : ℚ
  partial_streak : ℕ
  last_vision_at : ℚ
  poller : PollerState
  next_check_at : ℚ
  frames : ℕ
deriving DecidableEq

structure TickEnv where
  captureOk : Bool
  shouldEvaluate : Bool
  visionVerdict : Option (Str × Str)
  tNow : ℚ
deriving DecidableEq

inductive StepResult where
  | slept : StepResult
  | timedOut : StepResult
  | captureFailed : StepResult
  | noChange : StepResult
  | resolvedJob (desc : Str) : StepResult
  | rescheduled : StepResult
deriving DecidableEq

/-- The `[promoted from Nx PARTIAL]` description prefix built on streak
promotion. -/
def promoteDesc (streak : ℕ) (desc : Str) : Str :=
  "[promoted from ".data ++ natStr streak ++ "x PARTIAL] ".data ++ desc

/-- One iteration of `_run_loop` acting on the selected job: deadline
sleep, timeout check, capture, pixel-diff gate with the forced re-eval
after `MAX_STATIC_SECONDS`, then the verdict dispatch with the partial
streak counter. -/
def runBody (now : ℚ) (job : JobState) (env : TickEnv) : JobState × StepResult :=
  if job.next_check_at > now then (job, .slept)
  else if qSub now job.started_at > job.timeout then (job, .timedOut)
  else if !env.captureOk then
    ({ job with next_check_at := qAdd now job.poller.current }, .captureFailed)
  else
    let sinceLastVision :=
      if job.last_vision_at ≠ 0 then qSub now job.last_vision_at else qSub now job.started_at
    let forceEval : Bool := sinceLastVision ≥ MAX_STATIC_SECONDS
    if !env.shouldEvaluate && !forceEval then
      let p := on_no_change job.poller
      ({ job with poller := p, next_check_at := qAdd now p.current }, .noChange)
    else
      let job1 := { job with frames := job.frames + 1, last_vision_at := env.tNow }
      match env.visionVerdict with
      | none =>
        let p := on_change_no_match job1.poller
        ({ job1 with poller := p, next_check_at := qAdd env.tNow p.current }, .rescheduled)
      | some (verdict, desc) =>
        if verdict = "resolved".data then
          ({ job1 with partial_streak := 0 }, .resolvedJob desc)
        else if verdict = "partial".data then
          let streak := job1.partial_streak + 1
          if streak ≥ PARTIAL_STREAK_RESOLVE then
            ({ job1 with partial_streak := streak }, .resolvedJob (promoteDesc streak desc))
          else
            let p := on_partial_event job1.poller
            ({ job1 with
                partial_streak := streak
                poller := p
                next_check_at := qAdd env.tNow p.current }, .rescheduled)
        else
          let p := on_change_no_match job1.poller
          ({ job1 with
              partial_streak := 0
              poller := p
              next_check_at := qAdd env.tNow p.current }, .rescheduled)

/-- The terminal `WaitJob.status` value a step outcome writes
(`_timeout_job` writes `timeout`, `_resolve_job` writes `resolved`). -/
def terminalStatus : StepResult → Option Str
  | .timedOut => some "timeout".data
  | .resolvedJob _ => some "resolved".data
  | _ => none

/-! ## Job selection per loop iteration (engine.py lines 100-110)

`_run_loop` computes `min(self.jobs.values(), key=lambda j: j.next_check_at)`
and services only that job in the iteration (Python `min` keeps the first
of equal keys). -/

structure NamedJob where
  id : ℕ
  st : JobState
deriving DecidableEq

def mostOverdue (jobs : List NamedJob) : Option NamedJob :=
  jobs.foldl
    (fun acc j =>
      match acc with
      | none => some j
      | some b => if j.st.next_check_at < b.st.next_check_at then some j else some b)
    none

/-- The ids of the jobs whose evaluation starts in one loop iteration:
the single selected job when it is due, nothing when the loop sleeps. -/
def evaluatedThisIteration (jobs : List NamedJob) (now : ℚ) : List ℕ :=
  match mostOverdue jobs with
  | none => []
  | some j => if j.st.next_check_at > now then [] else [j.id]

/-- Modelled from the words of the spec, for comparison: the spec schedules
all overdue jobs (`next_check_at ≤ now`) concurrently within the tick. -/
def specOverdueSet (jobs : List NamedJob) (now : ℚ) : List ℕ :=
  (jobs.filter (fun j => decide (j.st.next_check_at ≤ now))).map (·.id)

/-! ## Display manager (src/agentic_computer_use/display/manager.py)

Subprocesses are opaque handles supplied by the environment; the
returned count is the number of Xvfb display subprocesses started. -/

def DEFAULT_TASK_DISPLAY_WIDTH : ℕ := 1280

def DEFAULT_TASK_DISPLAY_HEIGHT : ℕ := 720

structure DisplayInfo where
  task_id : String
  display_num : ℕ
  display_str : Str
  width : ℕ
  height : ℕ
  procId : ℕ
  wmProcId : Option ℕ
  created_at : ℚ
deriving DecidableEq

structure MgrState where
  displays : List (String × DisplayInfo)
deriving DecidableEq

structure AllocEnv where
  hostLocked : ℕ → Bool
  xvfbAlive : Bool
  hasFluxbox : Bool
  fluxboxOk : Bool
  procId : ℕ
  wmProcId : ℕ
  now : ℚ

def lookupDisplay (st : MgrState) (task : String) : Option DisplayInfo :=
  (st.displays.find? (fun kv => kv.1 == task)).map (·.2)

/-- Python `width or default`: `None` and `0` both fall back. -/
def orFalsyNat (o : Option ℕ) (d : ℕ) : ℕ :=
  match o with
  | none => d
  | some v => if v = 0 then d else v

/-- `_find_free_display_num`: lowest display number in `[100, 1000)`
neither recorded nor locked on the host; `none` models the
`RuntimeError` when all are taken. -/
def find_free_display_num (st : MgrState) (hostLocked : ℕ → Bool) : Option ℕ :=
  (List.range' 100 900).find?
    (fun n => !(st.displays.any (fun kv => kv.2.display_num == n)) && !(hostLocked n))

/-- `allocate_display(task_id, width, height)`.  Returns the error or the
new state and info, together with the number of Xvfb subprocesses
started. -/
def allocate_display (env : AllocEnv) (st : MgrState) (task : String)
    (width height : Option ℕ) : Except String (MgrState × DisplayInfo) × ℕ :=
  match lookupDisplay st task with
  | some info => (.ok (st, info), 0)
  | none =>
    let w := orFalsyNat width DEFAULT_TASK_DISPLAY_WIDTH
    let h := orFalsyNat height DEFAULT_TASK_DISPLAY_HEIGHT
    match find_free_display_num st env.hostLocked with
    | none => (.error "No free display numbers available", 0)
    | some num =>
      if !env.xvfbAlive then (.error "Xvfb failed to start", 1)
      else
        let wm := if env.hasFluxbox && env.fluxboxOk then some env.wmProcId else none
        let info : DisplayInfo :=
          { task_id := task, display_num := num, display_str := ':' :: natStr num,
            width := w, height := h, procId := env.procId, wmProcId := wm,
            created_at := env.now }
        (.ok ({ displays := st.displays ++ [(task, info)] }, info), 1)

inductive ReleaseEffect where
  | closeConn (display_num : ℕ) : ReleaseEffect
  | terminate (procId : ℕ) : ReleaseEffect
deriving DecidableEq

/-- `release_display(task_id)`: pop the record, close the cached
connection, terminate window manager then display subprocess; a no-op
on unknown task ids. -/
def release_display (st : MgrState) (task : String) : MgrState × List ReleaseEffect :=
  match lookupDisplay st task with
  | none => (st, [])
  | some info =>
    ({ displays := st.displays.filter (fun kv => !(kv.1 == task)) },
      [.closeConn info.display_num] ++
        (match info.wmProcId with
         | some wp => [.terminate wp]
         | none => []) ++
      [.terminate info.procId])

/-! ## Task journal: the wait-finished hook
(src/agentic_computer_use/task/manager.py, on_wait_finished) -/

def VALID_WAIT_STATES : List Str :=
  ["watching".data, "resolved".data, "timeout".data, "cancelled".data, "error".data]

/-- State normalization in `on_wait_finished`:
`str(state or "error").strip().lower()`, the `canceled` alias, and the
fallback to `error` outside the valid set. -/
def normalize_wait_state (state : Option Str) : Str :=
  let raw := match state with
    | none => "error".data
    | some s => if s = [] then "error".data else s
  let n := toLowerStr (stripStr raw)
  let n := if n = "canceled".data then "cancelled".data else n
  if VALID_WAIT_STATES.contains n then n else "error".data

structure TaskMeta where
  active_wait_ids : List Str
  last_wait_state : Option Str
  last_wait_event_at : Option ℚ
deriving DecidableEq

structure TaskRow where
  id : Str
  metadata : TaskMeta
deriving DecidableEq

structure WaitOutput where
  state : Str
  detail : Str
  elapsed_seconds : Option ℚ
  screenshot : Bool
deriving DecidableEq

structure ActionRow where
  task_id : Str
  action_type : Str
  summary : Str
  status : Str
  output_data : Option WaitOutput
deriving DecidableEq

def qfloor (q : ℚ) : ℤ := q.num.fdiv q.den

/-- Python `round(x, 1)` (ties differ: CPython rounds half to even,
this rounds half up; no claim exercises a tie). -/
def round1 (q : ℚ) : ℚ := mkRat (qfloor (qAdd (scaleQ 10 1 q) (mkRat 1 2))) 10

def isInfixStr : Str → Str → Bool
  | n, [] => decide (n = [])
  | n, h :: t => n.isPrefixOf (h :: t) || isInfixStr n t

/-- The SQL `UPDATE actions ... WHERE task_id = ? AND action_type =
wait AND summary LIKE ?` applied to one row. -/
def updateWaitAction (tid wid : Str) (out : WaitOutput) (status : Str)
    (a : ActionRow) : ActionRow :=
  if a.task_id == tid && a.action_type == "wait".data && isInfixStr wid a.summary then
    { a with output_data := some out, status := status }
  else a

/-- `on_wait_finished(task_id, wait_id, state, detail, screenshot_refs,
elapsed_seconds)` acting on the task row and the actions table; `now` is
`time.time()` at the call. -/
def on_wait_finished (task : Option TaskRow) (actions : List ActionRow)
    (wait_id : Str) (state : Option Str) (detail : Str)
    (screenshot_refs : Bool) (elapsed_seconds : Option ℚ) (now : ℚ) :
    Except Str (TaskRow × List ActionRow) :=
  match task with
  | none => .error "Task not found".data
  | some t =>
    let ns := normalize_wait_state state
    let meta : TaskMeta :=
      { active_wait_ids := t.metadata.active_wait_ids.filter (fun w => !(w == wait_id)),
        last_wait_state := some ns,
        last_wait_event_at := some now }
    let action_status := if ns = "resolved".data then "completed".data else "failed".data
    let out : WaitOutput :=
      { state := ns, detail := detail,
        elapsed_seconds := elapsed_seconds.map round1, screenshot := screenshot_refs }
    .ok ({ t with metadata := meta },
      actions.map (updateWaitAction t.id wait_id out action_status))

/-! ## Helper lemmas -/

theorem pollerStep_base (p : PollerState) (op : PollerOp) :
    (pollerStep p op).base = p.base := by
  cases op <;> simp [pollerStep, on_no_change, on_change_no_match, on_partial_event]
  split <;> rfl

theorem pollerStep_clamped (p : PollerState) (op : PollerOp)
    (hb1 : MIN_POLL_INTERVAL ≤ p.base) (hb2 : p.base ≤ MAX_POLL_INTERVAL)
    (h1 : MIN_POLL_INTERVAL ≤ p.current) (h2 : p.current ≤ MAX_POLL_INTERVAL) :
    MIN_POLL_INTERVAL ≤ (pollerStep p op).current ∧
      (pollerStep p op).current ≤ MAX_POLL_INTERVAL := by
  have h1' : 1/2 ≤ p.current := MIN_POLL_INTERVAL_eq ▸ h1
  have h2' : p.current ≤ 5 := h2
  cases op with
  | noChange =>
    simp only [pollerStep, on_no_change]
    split
    · simp only [qmin_eq, scaleQ_eq]
      constructor
      · apply le_min
        · rw [MIN_POLL_INTERVAL_eq]
          push_cast
          linarith
        · decide
      · exact min_le_right _ _
    · exact ⟨h1, h2⟩
  | changeNoMatch =>
    exact ⟨hb1, hb2⟩
  | partialVerdict =>
    simp only [pollerStep, on_partial_event, qmax_eq, scaleQ_eq]
    constructor
    · exact le_max_right _ _
    · apply max_le
      · show _ ≤ MAX_POLL_INTERVAL
        rw [MAX_POLL_INTERVAL]
        push_cast
        linarith
      · decide

theorem pollerRun_clamped (ops : List PollerOp) (p : PollerState)
    (hb1 : MIN_POLL_INTERVAL ≤ p.base) (hb2 : p.base ≤ MAX_POLL_INTERVAL)
    (h1 : MIN_POLL_INTERVAL ≤ p.current) (h2 : p.current ≤ MAX_POLL_INTERVAL) :
    MIN_POLL_INTERVAL ≤ (pollerRun p ops).current ∧
      (pollerRun p ops).current ≤ MAX_POLL_INTERVAL := by
  induction ops generalizing p with
  | nil => exact ⟨h1, h2⟩
  | cons op ops ih =>
    obtain ⟨c1, c2⟩ := pollerStep_clamped p op hb1 hb2 h1 h2
    have hb := pollerStep_base p op
    exact ih (pollerStep p op) (hb ▸ hb1) (hb ▸ hb2) c1 c2

/-! ## Claims C5 and C10: the adaptive poller -/

/-- C5 counterexample: a poller constructed with base interval 100 s
starts with current interval 100 s, above the global maximum, and stays
there after a change-no-match transition. -/
theorem C5_base_escapes_clamp :
    ¬ ((pollerInit (.num 100)).current ≤ MAX_POLL_INTERVAL) ∧
    ¬ ((pollerRun (pollerInit (.num 100)) [.changeNoMatch]).current ≤ MAX_POLL_INTERVAL) := by
  decide

/-- C5 (amended): when the base interval lies between the global
minimum (0.5 s) and maximum (5 s) poll intervals, the current interval
stays between them, inclusive, after any sequence of on_no_change,
on_change_no_match and on_partial transitions. -/
theorem C5_interval_clamped (b : ℚ) (ops : List PollerOp)
    (hlo : MIN_POLL_INTERVAL ≤ b) (hhi : b ≤ MAX_POLL_INTERVAL) :
    MIN_POLL_INTERVAL ≤ (pollerRun (pollerInit (.num b)) ops).current ∧
      (pollerRun (pollerInit (.num b)) ops).current ≤ MAX_POLL_INTERVAL :=
  pollerRun_clamped ops (pollerInit (.num b)) hlo hhi hlo hhi

theorem C5_interval_clamped_witness :
    MIN_POLL_INTERVAL ≤
        (pollerRun (pollerInit (.num 2)) [.partialVerdict, .partialVerdict, .noChange]).current ∧
      (pollerRun (pollerInit (.num 2)) [.partialVerdict, .partialVerdict, .noChange]).current ≤
        MAX_POLL_INTERVAL :=
  C5_interval_clamped 2 [.partialVerdict, .partialVerdict, .noChange] (by decide) (by decide)

/-- C10: building the poller is a total function of its argument, the
current interval always starts equal to the base, and a `None` or
non-convertible argument makes both fall back to the default poll
interval (2.0 s). -/
theorem C10_poller_init_fallback (arg : PollerArg) :
    (pollerInit arg).current = (pollerInit arg).base ∧
    (pollerInit arg).static_count = 0 ∧
    ((arg = .none ∨ arg = .invalid) → (pollerInit arg).base = DEFAULT_POLL_INTERVAL) := by
  cases arg with
  | none => exact ⟨rfl, rfl, fun _ => rfl⟩
  | invalid => exact ⟨rfl, rfl, fun _ => rfl⟩
  | num q => exact ⟨rfl, rfl, fun h => by rcases h with h | h <;> exact absurd h (by simp)⟩

theorem C10_poller_init_fallback_witness :
    (pollerInit .invalid).current = (pollerInit .invalid).base ∧
    (pollerInit .invalid).base = DEFAULT_POLL_INTERVAL :=
  ⟨(C10_poller_init_fallback .invalid).1,
   (C10_poller_init_fallback .invalid).2.2 (Or.inr rfl)⟩

theorem takeEveryAux_length {α : Type} (step : ℕ) (hstep : 1 ≤ step) :
    ∀ (l : List α) (k : ℕ), k < step →
      (takeEveryAux step l k).length = (l.length + (step - 1) - k) / step := by
  intro l
  induction l with
  | nil =>
    intro k hk
    simp only [takeEveryAux, List.length_nil]
    symm
    apply Nat.div_eq_of_lt
    omega
  | cons x xs ih =>
    intro k hk
    cases k with
    | zero =>
      simp only [takeEveryAux, List.length_cons]
      rw [ih (step - 1) (by omega)]
      have h1 : xs.length + (step - 1) - (step - 1) = xs.length := by omega
      have h2 : xs.length + 1 + (step - 1) - 0 = xs.length + step := by omega
      rw [h1, h2, Nat.add_div_right _ (by omega)]
    | succ k =>
      simp only [takeEveryAux, List.length_cons]
      rw [ih k (by omega)]
      congr 1
      omega

theorem takeEvery_length {α : Type} (step : ℕ) (hstep : 1 ≤ step) (l : List α) :
    (takeEvery step l).length = (l.length + (step - 1)) / step := by
  rw [takeEvery, takeEveryAux_length step hstep l 0 (by omega), Nat.sub_zero]

theorem takeEveryAux_mem {α : Type} (step : ℕ) :
    ∀ (l : List α) (k : ℕ) (x : α), x ∈ takeEveryAux step l k → x ∈ l := by
  intro l
  induction l with
  | nil => intro k x h; simp [takeEveryAux] at h
  | cons y ys ih =>
    intro k x h
    cases k with
    | zero =>
      simp only [takeEveryAux, List.mem_cons] at h ⊢
      rcases h with h | h
      · exact Or.inl h
      · exact Or.inr (ih _ _ h)
    | succ k =>
      simp only [takeEveryAux] at h
      exact List.mem_cons_of_mem _ (ih _ _ h)

/-! ## Claim C6: downsampling in the diff gate -/

set_option maxRecDepth 40000 in
/-- C6 counterexample: a frame of width 321 exceeds the default maximum
diff width 320, yet `_downsample` leaves it untouched (stride
`max(1, 321 // 320) = 1`), so the output width 321 still exceeds the
maximum. -/
theorem C6_downsample_can_exceed_max :
    DIFF_MAX_WIDTH < 321 ∧
    _downsample [List.replicate 321 (0 : ℕ)] 321 DIFF_MAX_WIDTH =
      [List.replicate 321 (0 : ℕ)] ∧
    DIFF_MAX_WIDTH <
      ((_downsample [List.replicate 321 (0 : ℕ)] 321 DIFF_MAX_WIDTH).headD []).length := by
  decide

/-- C6 (amended): for a frame of uniform width `w > maxw` with
`maxw ≥ 1`, integer-stride decimation bounds the width of every output row by
`2 * maxw - 1` (not by `maxw`; the bound is tight at `w = 2 * maxw - 1`). -/
theorem C6_downsample_width_bound {α : Type} (frame : List (List α)) (w maxw : ℕ)
    (hw : ∀ r ∈ frame, r.length = w) (hmax : 0 < maxw) (hgt : maxw < w) :
    ∀ r ∈ _downsample frame w maxw, r.length ≤ 2 * maxw - 1 := by
  intro r hr
  unfold _downsample at hr
  rw [if_neg (by omega)] at hr
  obtain ⟨r0, hr0, rfl⟩ := List.mem_map.mp hr
  have hr0f : r0 ∈ frame := takeEveryAux_mem _ _ _ _ hr0
  have hq1 : 1 ≤ w / maxw := (Nat.one_le_div_iff hmax).mpr (le_of_lt hgt)
  have hstepq : max 1 (w / maxw) = w / maxw := Nat.max_eq_right hq1
  rw [hstepq] at hr0 ⊢
  rw [takeEvery_length (w / maxw) hq1 r0, hw r0 hr0f]
  have hub : w < maxw * (w / maxw) + maxw := by
    have hdm := Nat.div_add_mod w maxw
    have hm := Nat.mod_lt w hmax
    omega
  generalize hq_def : w / maxw = q at hq1 hub ⊢
  have hkey : maxw + q ≤ maxw * q + 1 := by
    obtain ⟨m, rfl⟩ : ∃ m, maxw = m + 1 := ⟨maxw - 1, by omega⟩
    obtain ⟨n, hn⟩ : ∃ n, q = n + 1 := ⟨q - 1, by omega⟩
    rw [hn]
    have hexp : (m + 1) * (n + 1) = m * n + m + n + 1 := by ring
    omega
  have hlt : w + (q - 1) < 2 * maxw * q := by
    have h2 : 2 * maxw * q = 2 * (maxw * q) := by ring
    omega
  have hdiv : (w + (q - 1)) / q < 2 * maxw :=
    (Nat.div_lt_iff_lt_mul (by omega)).mpr (by linarith [hlt])
  omega

set_option maxRecDepth 40000 in
theorem C6_downsample_width_bound_witness :
    (List.replicate 400 (0 : ℕ)).length ≤ 2 * DIFF_MAX_WIDTH - 1 :=
  C6_downsample_width_bound [List.replicate 400 (0 : ℕ)] 400 DIFF_MAX_WIDTH
    (by decide) (by decide) (by decide) (List.replicate 400 (0 : ℕ)) (by decide)

/-! ## Claim C1: the timeout check -/

/-- C1 counterexample: at elapsed time exactly equal to the timeout the
loop does not terminate the job — the strict comparison `elapsed >
timeout` fails at equality and the body proceeds to the capture attempt
(here a failed one), with no frame ever captured. -/
theorem C1_equality_does_not_timeout :
    qSub 10 (0 : ℚ) = (10 : ℚ) ∧
    (runBody 10
        { timeout := 10, started_at := 0, partial_streak := 0, last_vision_at := 0,
          poller := pollerInit .none, next_check_at := 0, frames := 0 }
        { captureOk := false, shouldEvaluate := false, visionVerdict := none, tNow := 10 }).2
      = .captureFailed ∧
    terminalStatus
        (runBody 10
          { timeout := 10, started_at := 0, partial_streak := 0, last_vision_at := 0,
            poller := pollerInit .none, next_check_at := 0, frames := 0 }
          { captureOk := false, shouldEvaluate := false, visionVerdict := none, tNow := 10 }).2
      ≠ some "timeout".data := by
  decide

/-- C1 (amended): for every due wait job whose elapsed time strictly
exceeds its timeout, the loop body terminates the job with status
`timeout` before anything else happens: the outcome is the same for
every environment — in particular for a failing capture and for a job
that never captured a frame. -/
theorem C1_strict_timeout (now : ℚ) (job : JobState) (env : TickEnv)
    (hdue : ¬ job.next_check_at > now)
    (hto : qSub now job.started_at > job.timeout) :
    runBody now job env = (job, .timedOut) ∧
    terminalStatus (runBody now job env).2 = some "timeout".data := by
  unfold runBody
  rw [if_neg hdue, if_pos hto]
  exact ⟨rfl, rfl⟩

theorem C1_strict_timeout_witness :
    runBody 11
        { timeout := 10, started_at := 0, partial_streak := 0, last_vision_at := 0,
          poller := pollerInit .none, next_check_at := 0, frames := 0 }
        { captureOk := false, shouldEvaluate := false, visionVerdict := none, tNow := 11 }
      = ({ timeout := 10, started_at := 0, partial_streak := 0, last_vision_at := 0,
           poller := pollerInit .none, next_check_at := 0, frames := 0 }, .timedOut) ∧
    terminalStatus
        (runBody 11
          { timeout := 10, started_at := 0, partial_streak := 0, last_vision_at := 0,
            poller := pollerInit .none, next_check_at := 0, frames := 0 }
          { captureOk := false, shouldEvaluate := false, visionVerdict := none, tNow := 11 }).2
      = some "timeout".data :=
  C1_strict_timeout 11 _ _ (by decide) (by decide)

/-! ## Claim C2: partial-streak promotion and streak resets -/

/-- C2: when a due, non-timed-out evaluation with a captured frame and a
passing diff gate parses a `partial` verdict that brings the streak to
at least PARTIAL_STREAK_RESOLVE, the job terminates Resolved with the
last description prefixed `[promoted from Nx PARTIAL]` where N is the
streak; a `resolved` verdict resolves with streak reset to zero, and a
`watching` verdict reschedules with streak reset to zero. -/
theorem C2_partial_streak (now : ℚ) (job : JobState) (env : TickEnv) (v d : Str)
    (hdue : ¬ job.next_check_at > now)
    (hto : ¬ qSub now job.started_at > job.timeout)
    (hcap : env.captureOk = true)
    (hgate : env.shouldEvaluate = true)
    (hv : env.visionVerdict = some (v, d)) :
    (v = "partial".data → job.partial_streak + 1 ≥ PARTIAL_STREAK_RESOLVE →
      runBody now job env =
        ({ job with
            frames := job.frames + 1
            last_vision_at := env.tNow
            partial_streak := job.partial_streak + 1 },
          .resolvedJob
            ("[promoted from ".data ++ natStr (job.partial_streak + 1) ++
              "x PARTIAL] ".data ++ d))) ∧
    (v = "resolved".data →
      (runBody now job env).1.partial_streak = 0 ∧
        (runBody now job env).2 = .resolvedJob d) ∧
    (v = "watching".data →
      (runBody now job env).1.partial_streak = 0 ∧
        (runBody now job env).2 = .rescheduled) := by
  unfold runBody
  rw [if_neg hdue, if_neg hto, hcap, hgate, hv]
  dsimp only
  simp only [Bool.not_true, Bool.false_and, Bool.false_eq_true, if_false]
  refine ⟨?_, ?_, ?_⟩
  · intro hpv hstreak
    subst hpv
    rw [if_neg (by decide), if_pos hstreak]
    rfl
  · intro hrv
    subst hrv
    rw [if_pos rfl]
    exact ⟨rfl, rfl⟩
  · intro hwv
    subst hwv
    rw [if_neg (by decide), if_neg (by decide)]
    exact ⟨rfl, rfl⟩

theorem C2_partial_streak_witness :
    runBody 1
        { timeout := 60, started_at := 0, partial_streak := 1, last_vision_at := 0,
          poller := pollerInit .none, next_check_at := 0, frames := 1 }
        { captureOk := true, shouldEvaluate := true,
          visionVerdict := some ("partial".data, "progress bar full".data), tNow := 1 }
      = ({ timeout := 60, started_at := 0, partial_streak := 2, last_vision_at := 1,
           poller := pollerInit .none, next_check_at := 0, frames := 2 },
         .resolvedJob "[promoted from 2x PARTIAL] progress bar full".data) := by
  have h := (C2_partial_streak 1
    { timeout := 60, started_at := 0, partial_streak := 1, last_vision_at := 0,
      poller := pollerInit .none, next_check_at := 0, frames := 1 }
    { captureOk := true, shouldEvaluate := true,
      visionVerdict := some ("partial".data, "progress bar full".data), tNow := 1 }
    "partial".data "progress bar full".data
    (by decide) (by decide) rfl rfl rfl).1 rfl (by decide)
  rw [h]
  decide

theorem mostOverdue_foldl_mem (jobs : List NamedJob) :
    ∀ (acc : Option NamedJob) (j : NamedJob),
      jobs.foldl
        (fun acc j =>
          match acc with
          | none => some j
          | some b => if j.st.next_check_at < b.st.next_check_at then some j else some b)
        acc = some j →
      j ∈ jobs ∨ acc = some j := by
  induction jobs with
  | nil => intro acc j h; exact Or.inr h
  | cons x xs ih =>
    intro acc j h
    rcases ih _ j h with hmem | hacc
    · exact Or.inl (List.mem_cons_of_mem _ hmem)
    · cases acc with
      | none =>
        simp only at hacc
        cases hacc
        exact Or.inl (List.mem_cons_self _ _)
      | some b =>
        simp only at hacc
        split at hacc
        · cases hacc
          exact Or.inl (List.mem_cons_self _ _)
        · exact Or.inr hacc

theorem mostOverdue_mem (jobs : List NamedJob) (j : NamedJob)
    (h : mostOverdue jobs = some j) : j ∈ jobs := by
  rcases mostOverdue_foldl_mem jobs none j h with hmem | hacc
  · exact hmem
  · exact absurd hacc (by simp)

/-! ## Claim C7: per-tick evaluation fan-out -/

/-- C7 counterexample: two jobs are both overdue (`next_check_at = 0 ≤
now = 1`), but one loop iteration starts the evaluation of only the
single most overdue job — not of both, as the concurrent
fan-out requires. -/
theorem C7_single_job_per_iteration :
    evaluatedThisIteration
        [⟨1, { timeout := 60, started_at := 0, partial_streak := 0, last_vision_at := 0,
               poller := pollerInit .none, next_check_at := 0, frames := 0 }⟩,
         ⟨2, { timeout := 60, started_at := 0, partial_streak := 0, last_vision_at := 0,
               poller := pollerInit .none, next_check_at := 0, frames := 0 }⟩] 1 = [1] ∧
    specOverdueSet
        [⟨1, { timeout := 60, started_at := 0, partial_streak := 0, last_vision_at := 0,
               poller := pollerInit .none, next_check_at := 0, frames := 0 }⟩,
         ⟨2, { timeout := 60, started_at := 0, partial_streak := 0, last_vision_at := 0,
               poller := pollerInit .none, next_check_at := 0, frames := 0 }⟩] 1 = [1, 2] ∧
    evaluatedThisIteration
        [⟨1, { timeout := 60, started_at := 0, partial_streak := 0, last_vision_at := 0,
               poller := pollerInit .none, next_check_at := 0, frames := 0 }⟩,
         ⟨2, { timeout := 60, started_at := 0, partial_streak := 0, last_vision_at := 0,
               poller := pollerInit .none, next_check_at := 0, frames := 0 }⟩] 1 ≠
      specOverdueSet
        [⟨1, { timeout := 60, started_at := 0, partial_streak := 0, last_vision_at := 0,
               poller := pollerInit .none, next_check_at := 0, frames := 0 }⟩,
         ⟨2, { timeout := 60, started_at := 0, partial_streak := 0, last_vision_at := 0,
               poller := pollerInit .none, next_check_at := 0, frames := 0 }⟩] 1 := by
  decide

/-- C7 (amended): in one loop iteration the scheduler starts at most one
evaluation — that of the job with minimal `next_check_at`, when due —
and that job is one of the overdue jobs; the remaining overdue jobs are
serviced only in later iterations, so evaluations are sequential, not
concurrent. -/
theorem C7_evaluated_subset_overdue (jobs : List NamedJob) (now : ℚ) :
    (evaluatedThisIteration jobs now).length ≤ 1 ∧
    ∀ i ∈ evaluatedThisIteration jobs now, i ∈ specOverdueSet jobs now := by
  unfold evaluatedThisIteration
  cases hmo : mostOverdue jobs with
  | none => exact ⟨by simp, by simp⟩
  | some j =>
    dsimp only
    by_cases hdue : j.st.next_check_at > now
    · rw [if_pos hdue]
      exact ⟨by simp, by simp⟩
    · rw [if_neg hdue]
      constructor
      · simp
      · intro i hi
        simp only [List.mem_singleton] at hi
        subst hi
        unfold specOverdueSet
        rw [List.mem_map]
        refine ⟨j, ?_, rfl⟩
        rw [List.mem_filter]
        refine ⟨mostOverdue_mem jobs j hmo, ?_⟩
        simp only [decide_eq_true_eq]
        exact le_of_not_lt hdue

theorem C7_evaluated_subset_overdue_witness :
    (evaluatedThisIteration
        [⟨7, { timeout := 60, started_at := 0, partial_streak := 0, last_vision_at := 0,
               poller := pollerInit .none, next_check_at := 0, frames := 0 }⟩] 1).length ≤ 1 ∧
    7 ∈ specOverdueSet
        [⟨7, { timeout := 60, started_at := 0, partial_streak := 0, last_vision_at := 0,
               poller := pollerInit .none, next_check_at := 0, frames := 0 }⟩] 1 := by
  have h := C7_evaluated_subset_overdue
    [⟨7, { timeout := 60, started_at := 0, partial_streak := 0, last_vision_at := 0,
           poller := pollerInit .none, next_check_at := 0, frames := 0 }⟩] 1
  exact ⟨h.1, h.2 7 (by decide)⟩

theorem lookupDisplay_after_release (st : MgrState) (task : String) :
    lookupDisplay (release_display st task).1 task = none := by
  unfold release_display
  cases h : lookupDisplay st task with
  | none => exact h
  | some info =>
    dsimp only
    unfold lookupDisplay
    rw [List.find?_eq_none.mpr, Option.map_none']
    intro kv hkv
    have := List.mem_filter.mp hkv
    simpa using this.2

/-! ## Claim C8: display allocation idempotence and release no-op -/

/-- C8: allocating for a task that already has a recorded DisplayInfo
returns that same DisplayInfo with the state unchanged and zero display
subprocesses started; releasing an unknown task id is a no-op with no
effects; and a second release right after a first one is always a
no-op with no effects. -/
theorem C8_alloc_idempotent_release_noop :
    (∀ (env : AllocEnv) (st : MgrState) (task : String) (w h : Option ℕ)
        (info : DisplayInfo), lookupDisplay st task = some info →
        allocate_display env st task w h = (.ok (st, info), 0)) ∧
    (∀ (st : MgrState) (task : String), lookupDisplay st task = none →
        release_display st task = (st, [])) ∧
    (∀ (st : MgrState) (task : String),
        release_display (release_display st task).1 task =
          ((release_display st task).1, [])) := by
  refine ⟨?_, ?_, ?_⟩
  · intro env st task w h info hfound
    unfold allocate_display
    rw [hfound]
  · intro st task hnone
    unfold release_display
    rw [hnone]
  · intro st task
    have h := lookupDisplay_after_release st task
    conv_lhs => rw [release_display]
    rw [h]

theorem C8_alloc_idempotent_release_noop_witness :
    allocate_display
        { hostLocked := fun _ => false, xvfbAlive := true, hasFluxbox := false,
          fluxboxOk := false, procId := 3, wmProcId := 4, now := 0 }
        { displays := [("t1",
            { task_id := "t1", display_num := 100, display_str := ':' :: natStr 100,
              width := 1280, height := 720, procId := 3, wmProcId := none,
              created_at := 0 })] }
        "t1" none none =
      (.ok ({ displays := [("t1",
            { task_id := "t1", display_num := 100, display_str := ':' :: natStr 100,
              width := 1280, height := 720, procId := 3, wmProcId := none,
              created_at := 0 })] },
          { task_id := "t1", display_num := 100, display_str := ':' :: natStr 100,
            width := 1280, height := 720, procId := 3, wmProcId := none,
            created_at := 0 }), 0) ∧
    release_display { displays := [] } "ghost" = ({ displays := [] }, []) :=
  ⟨C8_alloc_idempotent_release_noop.1 _ _ "t1" none none _ (by decide),
   C8_alloc_idempotent_release_noop.2.1 { displays := [] } "ghost" (by decide)⟩

/-! ## Claim C9: the wait-finished hook -/

/-- C9: for every existing task and wait id, the hook succeeds, removes
the wait id from the task metadata `active_wait_ids` (keeping everything else,
in order), records the normalized state in `last_wait_state` and the
event time in `last_wait_event_at`, and rewrites every matching wait
Action — same task, kind `wait`, summary containing the wait id — to
carry the state and detail in its output and status `completed` exactly
when the normalized state is `resolved`, `failed` otherwise. -/
theorem C9_wait_finished_updates (t : TaskRow) (actions : List ActionRow)
    (wid : Str) (state : Option Str) (detail : Str) (scr : Bool)
    (elapsed : Option ℚ) (now : ℚ) (t' : TaskRow) (acts' : List ActionRow)
    (hok : on_wait_finished (some t) actions wid state detail scr elapsed now =
      .ok (t', acts')) :
    wid ∉ t'.metadata.active_wait_ids ∧
    t'.metadata.active_wait_ids =
      t.metadata.active_wait_ids.filter (fun w => !(w == wid)) ∧
    t'.metadata.last_wait_state = some (normalize_wait_state state) ∧
    t'.metadata.last_wait_event_at = some now ∧
    acts' = actions.map (updateWaitAction t.id wid
      { state := normalize_wait_state state, detail := detail,
        elapsed_seconds := elapsed.map round1, screenshot := scr }
      (if normalize_wait_state state = "resolved".data then "completed".data
        else "failed".data)) ∧
    (∀ a : ActionRow,
      (a.task_id == t.id && a.action_type == "wait".data && isInfixStr wid a.summary) =
        true →
      ((updateWaitAction t.id wid
          { state := normalize_wait_state state, detail := detail,
            elapsed_seconds := elapsed.map round1, screenshot := scr }
          (if normalize_wait_state state = "resolved".data then "completed".data
            else "failed".data) a).status = "completed".data ↔
        normalize_wait_state state = "resolved".data) ∧
      (updateWaitAction t.id wid
          { state := normalize_wait_state state, detail := detail,
            elapsed_seconds := elapsed.map round1, screenshot := scr }
          (if normalize_wait_state state = "resolved".data then "completed".data
            else "failed".data) a).output_data =
        some { state := normalize_wait_state state, detail := detail,
               elapsed_seconds := elapsed.map round1, screenshot := scr }) := by
  unfold on_wait_finished at hok
  dsimp only at hok
  rw [Except.ok.injEq, Prod.mk.injEq] at hok
  obtain ⟨ht, ha⟩ := hok
  subst ht
  subst ha
  refine ⟨?_, rfl, rfl, rfl, rfl, ?_⟩
  · intro hmem
    have := List.mem_filter.mp hmem
    simpa using this.2
  · intro a hmatch
    unfold updateWaitAction
    rw [if_pos hmatch]
    refine ⟨?_, rfl⟩
    constructor
    · intro hst
      by_contra hns
      rw [if_neg hns] at hst
      dsimp only at hst
      exact absurd hst (by decide)
    · intro hns
      rw [if_pos hns]

theorem C9_wait_finished_updates_witness :
    "w1".data ∉
      (TaskRow.mk "T".data
        (TaskMeta.mk ["w2".data] (some "resolved".data) (some 5))).metadata.active_wait_ids ∧
    ((updateWaitAction "T".data "w1".data
        { state := normalize_wait_state (some "RESOLVED ".data), detail := "ok".data,
          elapsed_seconds := none, screenshot := false }
        (if normalize_wait_state (some "RESOLVED ".data) = "resolved".data
          then "completed".data else "failed".data)
        (ActionRow.mk "T".data "wait".data "Started wait w1 on screen".data
          "started".data none)).status = "completed".data ↔
      normalize_wait_state (some "RESOLVED ".data) = "resolved".data) := by
  have h := C9_wait_finished_updates
    (TaskRow.mk "T".data (TaskMeta.mk ["w1".data, "w2".data] none none))
    [ActionRow.mk "T".data "wait".data "Started wait w1 on screen".data
      "started".data none]
    "w1".data (some "RESOLVED ".data) "ok".data false none 5
    (TaskRow.mk "T".data
      (TaskMeta.mk ["w2".data] (some "resolved".data) (some 5)))
    [ActionRow.mk "T".data "wait".data "Started wait w1 on screen".data
      "completed".data
      (some { state := "resolved".data, detail := "ok".data,
              elapsed_seconds := none, screenshot := false })]
    rfl
  exact ⟨h.1, (h.2.2.2.2.2
    (ActionRow.mk "T".data "wait".data "Started wait w1 on screen".data
      "started".data none) (by decide)).1⟩

/-! ## Parser lemmas -/

/-- Membership in the canonical label set of the verdict parser. -/
def isCanonicalLabel (s : Str) : Prop :=
  s = "resolved".data ∨ s = "partial".data ∨ s = "watching".data

theorem leading_take {α : Type} (p l : List α) (n : ℕ)
    (h : p <+: l) (hn : p.length ≤ n) : p <+: l.take n := by
  obtain ⟨t, rfl⟩ := h
  rw [List.take_append_eq_append_take, List.take_of_length_le hn]
  exact List.prefix_append _ _

theorem decisionToLabel_canonical (d : Str) : isCanonicalLabel (decisionToLabel d) := by
  unfold decisionToLabel isCanonicalLabel
  split_ifs <;> simp

theorem jsonVerdict_fst_eq (p : Payload) :
    (jsonVerdict p).1 =
      if decisionToLabel (toLowerStr (stripStr p.decision)) = "watching".data ∧
          confVal p ≥ RESOLVE_CONFIDENCE_THRESHOLD ∧ evidenceText p ≠ [] then
        "partial".data
      else decisionToLabel (toLowerStr (stripStr p.decision)) := rfl

theorem jsonVerdict_canonical (p : Payload) : isCanonicalLabel (jsonVerdict p).1 := by
  rw [jsonVerdict_fst_eq]
  split_ifs
  · right; left; rfl
  · exact decisionToLabel_canonical _

theorem jsonVerdict_promoted_marker (p : Payload)
    (h1 : decisionToLabel (toLowerStr (stripStr p.decision)) = "watching".data)
    (h2 : confVal p ≥ RESOLVE_CONFIDENCE_THRESHOLD)
    (h3 : evidenceText p ≠ []) :
    "[conf-promoted".data <+: (jsonVerdict p).2 := by
  unfold jsonVerdict
  dsimp only
  rw [if_pos ⟨h1, h2, h3⟩]
  apply leading_take
  · have h0 : "[conf-promoted".data <+: "[conf-promoted watching→partial @ ".data := by
      decide
    exact ((h0.trans (List.prefix_append _ _)).trans (List.prefix_append _ _)).trans
      (List.prefix_append _ _)
  · decide

theorem lineVerdict_canonical (l : Str) (r : Str × Str)
    (h : lineVerdict l = some r) : isCanonicalLabel r.1 := by
  unfold lineVerdict at h
  dsimp only at h
  split_ifs at h
  all_goals cases h
  all_goals simp [isCanonicalLabel]

theorem legacyScan_canonical :
    ∀ (ls : List Str) (r : Str × Str), legacyScan ls = some r → isCanonicalLabel r.1 := by
  intro ls
  induction ls with
  | nil => intro r h; exact Option.noConfusion h
  | cons l ls ih =>
    intro r h
    unfold legacyScan at h
    cases hl : lineVerdict l with
    | some x =>
      rw [hl] at h
      dsimp only at h
      cases h
      exact lineVerdict_canonical l _ hl
    | none =>
      rw [hl] at h
      dsimp only at h
      exact ih r h

theorem legacyScan_none :
    ∀ ls : List Str, (∀ l ∈ ls, lineVerdict l = none) → legacyScan ls = none := by
  intro ls
  induction ls with
  | nil => intro _; rfl
  | cons l ls ih =>
    intro h
    unfold legacyScan
    rw [h l (List.mem_cons_self _ _)]
    dsimp only
    exact ih (fun x hx => h x (List.mem_cons_of_mem _ hx))

theorem parse_verdict_canonical (r : Option Str) (j : Option Payload) :
    isCanonicalLabel (parse_verdict r j).1 := by
  unfold parse_verdict
  dsimp only
  split
  · right; right; rfl
  · cases j with
    | some p => exact jsonVerdict_canonical p
    | none =>
      dsimp only
      cases hscan : legacyScan (nonEmptyLines (stripStr (r.getD []))) with
      | some rr =>
        dsimp only
        exact legacyScan_canonical _ _ hscan
      | none =>
        dsimp only
        right; right; rfl

/-! ## Claim C3: the verdict parser is total and canonical -/

/-- C3: the parser is a total function (the embedding is a Lean
function, so it cannot raise) whose label is always one of resolved /
partial / watching; a decoded `FINAL_JSON` whose decision normalizes to
`resolved` yields `resolved`; a reply whose only recognizable line is a
`NO:` line yields `watching`; the empty and `None` replies yield
`watching`; and when nothing matches, the parser returns `watching`
with the stripped text truncated to 500 characters. -/
theorem C3_parse_verdict_total :
    (∀ (r : Option Str) (j : Option Payload), isCanonicalLabel (parse_verdict r j).1) ∧
    (∀ (r : Option Str) (p : Payload), stripStr (r.getD []) ≠ [] →
      toLowerStr (stripStr p.decision) = "resolved".data →
      (parse_verdict r (some p)).1 = "resolved".data) ∧
    parse_verdict (some "NO: still rendering".data) none =
      ("watching".data, "still rendering".data) ∧
    parse_verdict (some [] ) none = ("watching".data, "Empty response".data) ∧
    parse_verdict none none = ("watching".data, "Empty response".data) ∧
    (∀ r : Option Str, stripStr (r.getD []) ≠ [] →
      (∀ l ∈ nonEmptyLines (stripStr (r.getD [])), lineVerdict l = none) →
      parse_verdict r none = ("watching".data, (stripStr (r.getD [])).take 500)) := by
  refine ⟨parse_verdict_canonical, ?_, by decide, by decide, by decide, ?_⟩
  · intro r p hne hdec
    unfold parse_verdict
    dsimp only
    rw [if_neg hne]
    rw [jsonVerdict_fst_eq, hdec]
    rw [if_neg (fun hc => absurd hc.1 (by decide))]
    decide
  · intro r hne hall
    unfold parse_verdict
    dsimp only
    rw [if_neg hne, legacyScan_none _ hall]

theorem C3_parse_verdict_total_witness :
    isCanonicalLabel (parse_verdict (some "FINAL garbled".data) none).1 ∧
    (parse_verdict (some "see FINAL_JSON".data)
        (some { decision := " Resolved ".data, summary := "done".data,
                confidence := none, evidence := [] })).1 = "resolved".data ∧
    parse_verdict (some "mystery output 12345".data) none =
      ("watching".data, "mystery output 12345".data) := by
  refine ⟨C3_parse_verdict_total.1 _ _, C3_parse_verdict_total.2.1 _ _ (by decide) (by decide), ?_⟩
  have h := C3_parse_verdict_total.2.2.2.2.2
    (some "mystery output 12345".data) (by decide) (by decide)
  rw [h]
  decide

/-! ## Claim C4: confidence-based promotion of watching to partial -/

/-- C4: when a decoded `FINAL_JSON` maps to the `watching` label but its
confidence reaches the resolve threshold (default 0.75) and some
evidence string is non-empty after stripping, the parser returns
`partial` with the description prefixed by the conf-promotion note. -/
theorem C4_conf_promotion (r : Option Str) (p : Payload)
    (hne : stripStr (r.getD []) ≠ [])
    (hdec : decisionToLabel (toLowerStr (stripStr p.decision)) = "watching".data)
    (hconf : confVal p ≥ RESOLVE_CONFIDENCE_THRESHOLD)
    (hev : evidenceText p ≠ []) :
    (parse_verdict r (some p)).1 = "partial".data ∧
    "[conf-promoted".data <+: (parse_verdict r (some p)).2 := by
  have hbranch : parse_verdict r (some p) = jsonVerdict p := by
    unfold parse_verdict
    dsimp only
    rw [if_neg hne]
  rw [hbranch, jsonVerdict_fst_eq, if_pos ⟨hdec, hconf, hev⟩]
  exact ⟨rfl, jsonVerdict_promoted_marker p hdec hconf hev⟩

theorem C4_conf_promotion_witness :
    (parse_verdict (some "FINAL_JSON output".data)
        (some { decision := "watching".data, summary := "almost there".data,
                confidence := some { shown := "0.9".data, asFloat := some (mkRat 9 10) },
                evidence := ["progress bar at 90%".data] })).1 = "partial".data ∧
    "[conf-promoted".data <+:
      (parse_verdict (some "FINAL_JSON output".data)
        (some { decision := "watching".data, summary := "almost there".data,
                confidence := some { shown := "0.9".data, asFloat := some (mkRat 9 10) },
                evidence := ["progress bar at 90%".data] })).2 :=
  C4_conf_promotion _ _ (by decide) (by decide) (by decide) (by decide)

end ACU
